import Mathlib

/-!
Verification development for the cc-team-dashboard repository.

The repository ships a browser front end (`static/js/dashboard.js`), a
heartbeat cron script (`scripts/heartbeat-cron.sh`), a deployment guide and
two PRD documents.  The Flask back end (`app.py`, `models.py`,
`github_client.py`) referenced by those documents is not part of the source
tree we were given, so the back-end operations (agent registry, heartbeat
ingestor, liveness evaluator, issue cache, kanban projector, API
authorization, refresh scheduler) are modelled from the specification text,
while everything that lives in `dashboard.js` (status normalization, HTML
escaping, the render functions, the kanban grouping) is embedded directly
from the JavaScript source.

Timestamps are natural numbers; where JavaScript computes a possibly
negative difference (`now - then < 0`) the embedding compares first, so the
truncated subtraction of `Nat` is never taken on a negative quantity.
-/

namespace CCDashboard

/-! ## Effective status values (§3 of the spec; CSS classes in dashboard.js) -/

/-- The five recognized display statuses. -/
inductive Status where
  | online
  | idle
  | busy
  | error
  | offline
deriving DecidableEq, Repr

/-- Lower-casing exactly as JavaScript `String.prototype.toLowerCase`
behaves on the ASCII status strings: each character is lower-cased
independently. -/
def jsToLower (s : String) : String := ⟨s.data.map Char.toLower⟩

/-- Embedded from `dashboard.js` lines 54-61 (`statusClass`):
`var s = (status || 'offline').toLowerCase();` followed by the
`online / busy / idle / error` chain with `offline` as the fallback.
A missing (`null`/`undefined`) or empty status string is falsy in
JavaScript, hence the `Option String` argument and the empty-string case. -/
def statusClass (status : Option String) : Status :=
  let raw := status.getD ""
  let s := jsToLower (if raw = "" then "offline" else raw)
  if s = "online" then .online
  else if s = "busy" then .busy
  else if s = "idle" then .idle
  else if s = "error" then .error
  else .offline

/-! ## Agent registry (modelled from the spec) -/

/-- An agent record as described in §3 of the spec.  `lastActive` is always
set because both registration and heartbeats stamp it. -/
structure Agent where
  id : Nat
  name : String
  role : String
  declaredStatus : Option String
  lastActive : Nat
  uptimeSince : Nat
  currentTask : Option String
deriving DecidableEq, Repr

/-- The in-memory agent registry: agents in registration (insertion) order,
plus the next id to hand out.  Ids start at 1 (the spec scenario registers
"Kat" and receives `id = 1`). -/
structure Registry where
  agents : List Agent
  nextId : Nat
deriving DecidableEq, Repr

/-- The empty registry. -/
def Registry.init : Registry := ⟨[], 1⟩

/-- Modelled from the spec: `Register(name, role) -> agentId` (§4.1).
Missing from src: the Flask back end (`app.py`/`models.py`).  Creates the
agent if `name` is unseen; otherwise updates `role` and resets
`uptime_since` to now, preserving `id`, `last_active` and `current_task`.
Never fails on a duplicate name.  `regUpdate` is the per-record update the
upsert applies to the record whose name matches. -/
def regUpdate (name role : String) (now : Nat) (b : Agent) : Agent :=
  if b.name == name then { b with role := role, uptimeSince := now } else b

/-- The record created for a previously unseen name. -/
def freshAgent (st : Registry) (name role : String) (now : Nat) : Agent :=
  { id := st.nextId, name := name, role := role, declaredStatus := none,
    lastActive := now, uptimeSince := now, currentTask := none }

/-- Modelled from the spec: see `regUpdate`. -/
def register (st : Registry) (name role : String) (now : Nat) : Registry × Nat :=
  match st.agents.find? (fun a => a.name == name) with
  | some a =>
      ({ st with agents := st.agents.map (regUpdate name role now) }, a.id)
  | none =>
      ({ agents := st.agents ++ [freshAgent st name role now],
         nextId := st.nextId + 1 },
        st.nextId)

/-- Heartbeat failure taxonomy (§7 of the spec). -/
inductive HeartbeatError where
  | notFound
deriving DecidableEq, Repr

/-- Modelled from the spec: `Heartbeat(agentId, status, task?) -> ok` (§4.1
and §5).  Missing from src: the Flask back end.  Updates `declared_status`,
`current_task` (only if provided) and `last_active`; a heartbeat whose
timestamp is older than the stored `last_active` leaves `last_active`
unchanged (monotonicity, §3), hence the `max`.  Fails with `NotFound` when
the id is unknown.  `hbUpdate` is the per-record update applied to the
record whose id matches. -/
def hbUpdate (agentId : Nat) (status : String) (task : Option String)
    (now : Nat) (a : Agent) : Agent :=
  if a.id == agentId then
    { a with
        declaredStatus := some status,
        currentTask := match task with
          | some t => some t
          | none => a.currentTask,
        lastActive := max a.lastActive now }
  else a

/-- Modelled from the spec: see `hbUpdate`. -/
def heartbeat (st : Registry) (agentId : Nat) (status : String)
    (task : Option String) (now : Nat) : Except HeartbeatError Registry :=
  match st.agents.find? (fun a => a.id == agentId) with
  | none => .error .notFound
  | some _ =>
      .ok { st with agents := st.agents.map (hbUpdate agentId status task now) }

/-- Modelled from the spec: the pure liveness evaluator
`EffectiveStatus(lastActive, declaredStatus, now, timeout)` (§3, §4.2).
Missing from src: the Flask back end.  If `now - last_active > timeout` the
agent displays `offline` regardless of the declared status; otherwise the
declared status is normalized exactly as the front end's `statusClass`
does (defaulting to `offline` when never set or unrecognized). -/
def effectiveStatus (lastActive : Nat) (declared : Option String)
    (now timeout : Nat) : Status :=
  if now - lastActive > timeout then .offline else statusClass declared

/-- Modelled from the spec: `List()` (§4.1) returns every agent, in
registration order, paired with its effective status recomputed at read
time. -/
def listAgents (st : Registry) (now timeout : Nat) : List (Agent × Status) :=
  st.agents.map (fun a => (a, effectiveStatus a.lastActive a.declaredStatus now timeout))

/-! ## Decimal rendering (JavaScript number-to-string coercion) -/

/-- The decimal digit characters used by JavaScript number coercion. -/
def digitChar (m : Nat) : Char :=
  match m with
  | 0 => '0' | 1 => '1' | 2 => '2' | 3 => '3' | 4 => '4'
  | 5 => '5' | 6 => '6' | 7 => '7' | 8 => '8' | _ => '9'

/-- Decimal digits of `n`, most significant first, prepended to `acc`.
`fuel` bounds the recursion; `n + 1` units always suffice. -/
def natStrGo (fuel n : Nat) (acc : List Char) : List Char :=
  match fuel with
  | 0 => acc
  | fuel + 1 =>
      if n < 10 then digitChar n :: acc
      else natStrGo fuel (n / 10) (digitChar (n % 10) :: acc)

/-- Decimal rendering of a natural number, as JavaScript renders an integer
when it is concatenated into a string (`'#' + issue.number`). -/
def natStr (n : Nat) : String := ⟨natStrGo (n + 1) n []⟩

/-! ## Relative time display, embedded from `dashboard.js` lines 26-40
(`timeAgo`).  Timestamps are milliseconds; a missing timestamp renders as
`Never`, a timestamp in the future as `Just now`. -/

/-- Embedded from `dashboard.js` `timeAgo` (the JavaScript locals
`seconds`, `minutes`, `hours` are inlined as the corresponding quotient
expressions). -/
def timeAgo (isoTs : Option Nat) (now : Nat) : String :=
  match isoTs with
  | none => "Never"
  | some t =>
      if now < t then "Just now"
      else if (now - t) / 1000 < 60 then natStr ((now - t) / 1000) ++ "s ago"
      else if (now - t) / 1000 / 60 < 60 then natStr ((now - t) / 1000 / 60) ++ "m ago"
      else if (now - t) / 1000 / 60 / 60 < 24 then
        natStr ((now - t) / 1000 / 60 / 60) ++ "h ago"
      else natStr ((now - t) / 1000 / 60 / 60 / 24) ++ "d ago"

/-! ## HTML escaping, embedded from `dashboard.js` lines 128-133
(`escapeHtml`).  The original routes the string through a DOM text node and
reads back `innerHTML`; per the HTML fragment-serialization algorithm this
replaces `&`, `<`, `>` and the NO-BREAK SPACE U+00A0 by their entities;
a falsy argument (`null`, `undefined`, the empty string) yields `''`. -/

/-- How a single character of a DOM text node serializes in `innerHTML`:
`&` → `&amp;`, U+00A0 → `&nbsp;`, `<` → `&lt;`, `>` → `&gt;`, everything
else verbatim. -/
def escChar (c : Char) : List Char :=
  if c = '&' then ['&', 'a', 'm', 'p', ';']
  else if c = '\u00A0' then ['&', 'n', 'b', 's', 'p', ';']
  else if c = '<' then ['&', 'l', 't', ';']
  else if c = '>' then ['&', 'g', 't', ';']
  else [c]

/-- Embedded from `dashboard.js` `escapeHtml`. -/
def escapeHtml (str : Option String) : String :=
  match str with
  | none => ""
  | some s => if s = "" then "" else ⟨s.data.flatMap escChar⟩

/-! ## Issue cards and kanban board, embedded from `dashboard.js` -/

/-- An issue as the front end receives it from `GET /api/issues`.  The
`column` field is whatever string the back end sent (absent fields are
`none`). -/
structure JsIssue where
  number : Nat
  title : String
  url : String
  repo : String
  labels : List String
  assignee : Option String
  column : Option String
deriving DecidableEq, Repr

/-- Splitting a character list at a separator, as JavaScript
`String.prototype.split` does (the empty string splits to `[""]`). -/
def splitChar (sep : Char) : List Char → List (List Char)
  | [] => [[]]
  | c :: t =>
      let r := splitChar sep t
      if c = sep then [] :: r
      else
        match r with
        | [] => [[c]]
        | a :: rest => (c :: a) :: rest

/-- Embedded from `dashboard.js` lines 449-453 (`repoShort`): a falsy
`fullName` yields `''`; otherwise the part after the first `/`, or the
whole string when there is no `/`. -/
def repoShort (fullName : String) : String :=
  if fullName = "" then ""
  else
    let parts := (splitChar '/' fullName.data).map (fun l => (⟨l⟩ : String))
    if parts.length > 1 then parts.getD 1 "" else fullName

/-- The label-chip loop inside `renderIssueCard` (`dashboard.js` lines
459-461). -/
def renderLabelList : List String → String
  | [] => ""
  | l :: ls =>
      "<span class=\"issue-label\">" ++ escapeHtml (some l) ++ "</span>"
        ++ renderLabelList ls

/-- Embedded from `dashboard.js` lines 455-482 (`renderIssueCard`).  The
assignee span is guarded by JavaScript truthiness (`issue.assignee ?`), so
a missing *or empty-string* assignee renders nothing. -/
def renderIssueCard (issue : JsIssue) : String :=
  let labels :=
    if issue.labels.length > 0 then
      "<div class=\"issue-labels\">" ++ renderLabelList issue.labels ++ "</div>"
    else ""
  let assigneeHtml :=
    if issue.assignee.getD "" = "" then ""
    else "<span class=\"issue-assignee\">" ++ escapeHtml issue.assignee ++ "</span>"
  "<div class=\"issue-card\">"
    ++ "<div class=\"issue-card-title\">"
    ++ "<a href=\"" ++ escapeHtml (some issue.url) ++ "\" target=\"_blank\" rel=\"noopener\">"
    ++ escapeHtml (some issue.title)
    ++ "</a>"
    ++ "</div>"
    ++ "<div class=\"issue-card-meta\">"
    ++ "<span class=\"issue-card-number\">#" ++ natStr issue.number ++ "</span>"
    ++ "<span class=\"repo-badge\">" ++ escapeHtml (some (repoShort issue.repo)) ++ "</span>"
    ++ assigneeHtml
    ++ "</div>"
    ++ labels
    ++ "</div>"

/-- The five kanban column names recognized by the board
(`dashboard.js` lines 433-439, keys of `COLUMN_IDS`). -/
def kanbanColKeys : List String := ["Inbox", "Assigned", "In Progress", "Review", "Done"]

/-- The property names a JavaScript property read on an object literal
finds on `Object.prototype`: for these keys `obj[key]` yields an inherited
function (or, for `__proto__`, `Object.prototype` itself) — a truthy,
non-array value. -/
def objectProtoKeys : List String :=
  ["constructor", "hasOwnProperty", "isPrototypeOf", "propertyIsEnumerable",
   "toLocaleString", "toString", "valueOf", "__proto__", "__defineGetter__",
   "__defineSetter__", "__lookupGetter__", "__lookupSetter__"]

/-- The column name after `dashboard.js` lines 491-492: `var col =
issues[i].column || 'Inbox'; if (!columns[col]) col = 'Inbox';`.  A missing
or empty column is `Inbox`; the `!columns[col]` test reaches the prototype
chain, so a name that is a key of the `columns` object *or* an inherited
`Object.prototype` property is truthy and survives, and only genuinely
absent names fall back to `Inbox`. -/
def normalizeColumn (c : Option String) : String :=
  let raw := c.getD ""
  let col := if raw = "" then "Inbox" else raw
  if kanbanColKeys.contains col || objectProtoKeys.contains col then col
  else "Inbox"

/-- The bucket of issues whose normalized column is `colName`, in their
original order — the contents `columns[colName]` accumulates when the
grouping loop completes. -/
def kanbanGroup (issues : List JsIssue) (colName : String) : List JsIssue :=
  issues.filter (fun i => normalizeColumn i.column == colName)

/-- The TypeError `columns[col].push(issues[i])` throws when `col` survived
the truthiness test through the prototype chain: the inherited value is a
function or `Object.prototype`, not an array, and has no `push`. -/
inductive JsTypeError where
  | pushOnNonArray
deriving DecidableEq, Repr

/-- One iteration of the grouping loop (`dashboard.js` line 493,
`columns[col].push(issues[i])`): appends the issue to the bucket whose key
is its normalized column, or throws when that column names an inherited
`Object.prototype` property rather than one of the five arrays. -/
def kanbanPush (buckets : List (String × List JsIssue)) (i : JsIssue) :
    Except JsTypeError (List (String × List JsIssue)) :=
  let col := normalizeColumn i.column
  if kanbanColKeys.contains col then
    .ok (buckets.map (fun p => if p.1 == col then (p.1, p.2 ++ [i]) else p))
  else .error .pushOnNonArray

/-- The grouping loop of `renderKanbanBoard` (`dashboard.js` lines
489-494), running left to right; a throw aborts the whole render. -/
def kanbanGroupsGo :
    List (String × List JsIssue) → List JsIssue →
      Except JsTypeError (List (String × List JsIssue))
  | buckets, [] => .ok buckets
  | buckets, i :: rest =>
      match kanbanPush buckets i with
      | .ok next => kanbanGroupsGo next rest
      | .error e => .error e

/-- `renderKanbanBoard`'s grouping, starting from the five empty buckets of
`dashboard.js` line 489. -/
def kanbanGroups (issues : List JsIssue) :
    Except JsTypeError (List (String × List JsIssue)) :=
  kanbanGroupsGo (kanbanColKeys.map (fun k => (k, []))) issues

/-! ## Activity feed, embedded from `dashboard.js` lines 377-407 -/

/-- An activity event as the front end receives it from
`GET /api/activity`. -/
structure ActivityEvent where
  eventType : Option String
  agent : Option String
  message : Option String
  timestamp : Option Nat
deriving DecidableEq, Repr

/-- The string a JavaScript string coercion produces for a value inherited
from `Object.prototype`: `Object.prototype` itself (reached via
`__proto__`) coerces to `[object Object]`; the inherited methods coerce to
their native-function source text, whose exact whitespace is host-defined —
a representative form is used here, and no theorem below depends on it. -/
def protoCoerceString (s : String) : String :=
  if s = "__proto__" then "[object Object]"
  else "function " ++ s ++ "() \x7b [native code] \x7d"

/-- Embedded from `dashboard.js` lines 377-381 and 395
(`ACTIVITY_ICONS[e.type] || '•'`): the object-literal lookup reaches
the prototype chain, so an event type naming an inherited
`Object.prototype` property yields that inherited value — truthy, hence
not replaced by `'•'` — which the string concatenation then coerces. -/
def activityIcon (t : Option String) : String :=
  match t with
  | none => "•"
  | some s =>
      if s = "commit" then "●"
      else if s = "heartbeat" then "♥"
      else if s = "slack" then "#"
      else if objectProtoKeys.contains s then protoCoerceString s
      else "•"

/-- `var iconClass = e.type || 'commit';` (`dashboard.js` line 396). -/
def iconClass (t : Option String) : String :=
  let raw := t.getD ""
  if raw = "" then "commit" else raw

/-- One item of the activity feed, embedded from `dashboard.js` lines
393-404. -/
def renderActivityItem (now : Nat) (e : ActivityEvent) : String :=
  "<div class=\"activity-item\">"
    ++ "<span class=\"activity-icon " ++ iconClass e.eventType ++ "\">"
    ++ activityIcon e.eventType ++ "</span>"
    ++ "<div class=\"activity-body\">"
    ++ "<span class=\"activity-agent\">" ++ escapeHtml e.agent ++ "</span>"
    ++ "<span class=\"activity-message\">" ++ escapeHtml e.message ++ "</span>"
    ++ "</div>"
    ++ "<span class=\"activity-time\">" ++ timeAgo e.timestamp now ++ "</span>"
    ++ "</div>"

/-- The concatenation loop of `renderActivityFeed`
(`dashboard.js` lines 392-405). -/
def renderActivityItems (now : Nat) : List ActivityEvent → String
  | [] => ""
  | e :: es => renderActivityItem now e ++ renderActivityItems now es

/-! ## Kanban projector (modelled from the spec, §4.4) -/

/-- An issue record as cached by the back end. -/
structure SpecIssue where
  repo : String
  number : Nat
  title : String
  url : String
  labels : List String
  assignee : Option String
  updatedAt : Nat
  closed : Bool
deriving DecidableEq, Repr

/-- The five kanban columns. -/
inductive KanbanCol where
  | inbox
  | assigned
  | inProgress
  | review
  | done
deriving DecidableEq, Repr

/-- A label indicating review (§4.4; per the spec's design note the rule
set of §4.4 is the contract, with no additional label synonyms). -/
def hasReviewLabel (i : SpecIssue) : Bool := i.labels.contains "review"

/-- A label indicating active work (§4.4). -/
def hasInProgressLabel (i : SpecIssue) : Bool := i.labels.contains "in-progress"

/-- Modelled from the spec: the pure kanban projector `Column(issue)`
(§4.4).  Missing from src: the back end's `github_client.py`.  Rules are
evaluated in the fixed order closed → review-label →
in-progress-label-or-assignee-with-recent-update → assignee → default;
the first matching rule wins. -/
def column (now workWindow : Nat) (i : SpecIssue) : KanbanCol :=
  if i.closed then .done
  else if hasReviewLabel i then .review
  else if hasInProgressLabel i
      || (i.assignee.isSome && decide (now - i.updatedAt ≤ workWindow)) then .inProgress
  else if i.assignee.isSome then .assigned
  else .inbox

/-! ## Issue cache and refresh (modelled from the spec, §4.3) -/

/-- Replace (or create) the cache slice of one repository, leaving every
other slice untouched. -/
def setSlice (slices : List (String × List SpecIssue)) (repo : String)
    (issues : List SpecIssue) : List (String × List SpecIssue) :=
  if slices.any (fun p => p.1 == repo) then
    slices.map (fun p => if p.1 == repo then (repo, issues) else p)
  else slices ++ [(repo, issues)]

/-- The current slice of one repository (empty when never fetched). -/
def getSlice (slices : List (String × List SpecIssue)) (repo : String) :
    List SpecIssue :=
  match slices.find? (fun p => p.1 == repo) with
  | some p => p.2
  | none => []

/-- The issue cache: one slice per repository, refresh stamps, and a
failure log kept for observability. -/
structure IssueCache where
  slices : List (String × List SpecIssue)
  lastRefreshed : List (String × Nat)
  failures : List (String × Nat)
deriving DecidableEq, Repr

/-- Fetch failure taxonomy (§7 of the spec). -/
inductive FetchError where
  | upstreamUnavailable
deriving DecidableEq, Repr

/-- Modelled from the spec: `Refresh(repo) -> ok | Error` (§4.3).  Missing
from src: the back end.  On success the slice for `repo` is replaced
wholesale and the refresh stamp updated; on failure the previous slice is
left untouched and the failure is recorded for observability.  The `Bool`
is the report used by the scheduler — no error propagates to readers. -/
def refresh (c : IssueCache) (repo : String) (now : Nat)
    (fetched : Except FetchError (List SpecIssue)) : IssueCache × Bool :=
  match fetched with
  | .ok issues =>
      ({ c with
          slices := setSlice c.slices repo issues,
          lastRefreshed := (repo, now) :: c.lastRefreshed }, true)
  | .error _ => ({ c with failures := (repo, now) :: c.failures }, false)

/-- Modelled from the spec: the read API `List()` over the issue cache
(§4.3) — the union of all slices, each issue annotated with its derived
column.  Its type is a plain list: a read can never surface an error. -/
def listIssues (c : IssueCache) (now workWindow : Nat) :
    List (SpecIssue × KanbanCol) :=
  c.slices.flatMap (fun p => p.2.map (fun i => (i, column now workWindow i)))

/-! ## API authorization (modelled from the spec, §6, and the deployment
guide's API-key section) -/

/-- The seven HTTP endpoints of §6. -/
inductive Endpoint where
  | registerAgent
  | heartbeatPost
  | issuesRefresh
  | heartbeatToggle
  | agentsGet
  | issuesGet
  | activityGet
deriving DecidableEq, Repr

/-- The write endpoints (§6: register, heartbeat, issues/refresh,
heartbeat/toggle). -/
def isWriteEndpoint : Endpoint → Bool
  | .registerAgent => true
  | .heartbeatPost => true
  | .issuesRefresh => true
  | .heartbeatToggle => true
  | .agentsGet => false
  | .issuesGet => false
  | .activityGet => false

/-- Authorization failure (§7 of the spec). -/
inductive ApiError where
  | unauthorized
deriving DecidableEq, Repr

/-- Modelled from the spec: the shared-secret check (§6 and the deployment
guide: write endpoints require the `X-API-Key` header when
`DASHBOARD_API_KEY` is set; reads are public).  Missing from src: the
Flask back end. -/
def authorize (configuredKey : Option String) (e : Endpoint)
    (header : Option String) : Except ApiError Unit :=
  if isWriteEndpoint e then
    match configuredKey with
    | none => .ok ()
    | some k => if header = some k then .ok () else .error .unauthorized
  else .ok ()

/-! ## Refresh scheduler (modelled from the spec, §4.5 and §5) -/

/-- The scheduler's view of the issue subsystem: the set of repositories
with a refresh in flight, plus the cache. -/
structure SchedState where
  inFlight : List String
  cache : IssueCache
deriving DecidableEq, Repr

/-- Scheduler events: beginning a refresh for a repository and an in-flight
refresh completing with the fetch outcome. -/
inductive SchedEvent where
  | start (repo : String)
  | complete (repo : String) (now : Nat) (fetched : Except FetchError (List SpecIssue))
deriving Repr

/-- Modelled from the spec: one scheduler transition (§4.5).  Missing from
src: the back end.  Starting a refresh for a repository that already has
one in flight is a no-op (at-most-one-concurrent-refresh-per-repo); a
completion applies the single fetch outcome through `refresh` and releases
the repository. -/
def schedStep (s : SchedState) (ev : SchedEvent) : SchedState :=
  match ev with
  | .start repo =>
      if repo ∈ s.inFlight then s
      else { s with inFlight := repo :: s.inFlight }
  | .complete repo now fetched =>
      if repo ∈ s.inFlight then
        { inFlight := s.inFlight.erase repo,
          cache := (refresh s.cache repo now fetched).1 }
      else s

/-- The scheduler state after a serialized trace of events, from an idle
start. -/
def schedRun (evs : List SchedEvent) : SchedState :=
  evs.foldl schedStep ⟨[], ⟨[], [], []⟩⟩

/-! ## Concrete records used to instantiate the hypothesis-bearing
theorems -/

/-- The agent produced by the spec scenario of §8: register "Kat", then a
heartbeat `online` at time 0. -/
def katAgent : Agent :=
  { id := 1, name := "Kat", role := "backend", declaredStatus := some "online",
    lastActive := 0, uptimeSince := 0, currentTask := none }

/-- The registry holding exactly `katAgent`. -/
def katRegistry : Registry := ⟨[katAgent], 2⟩

/-! # Theorems -/

/-- C1: for every agent delivered by a `List()` read, the effective display
status is `offline` whenever `now - last_active > heartbeat_timeout`,
regardless of the declared status; otherwise it equals the declared status,
defaulting to `offline` when the declared status was never set, is empty,
or is not one of the five recognized values; and the §8 scenario holds:
after registering "Kat" and one `online` heartbeat at `t0` (timeout 60),
`List()` shows `online` at `t0 + 30` and `offline` at `t0 + 90` with no
further writes. -/
theorem effective_status_rule (st : Registry) (now timeout : Nat)
    (p : Agent × Status) (hp : p ∈ listAgents st now timeout) :
    (now - p.1.lastActive > timeout → p.2 = Status.offline)
    ∧ (now - p.1.lastActive ≤ timeout → p.2 = statusClass p.1.declaredStatus)
    ∧ statusClass none = Status.offline
    ∧ (∀ s : String, jsToLower s ∉ ["online", "idle", "busy", "error", "offline"] →
        statusClass (some s) = Status.offline)
    ∧ statusClass (some "online") = Status.online
    ∧ statusClass (some "idle") = Status.idle
    ∧ statusClass (some "busy") = Status.busy
    ∧ statusClass (some "error") = Status.error
    ∧ statusClass (some "offline") = Status.offline
    ∧ (∀ t0 st1 id1, register Registry.init "Kat" "backend" t0 = (st1, id1) →
        ∀ st2, heartbeat st1 id1 "online" none t0 = Except.ok st2 →
          (listAgents st2 (t0 + 30) 60).map Prod.snd = [Status.online]
          ∧ (listAgents st2 (t0 + 90) 60).map Prod.snd = [Status.offline]) := by
  obtain ⟨a, ha, hpa⟩ := List.mem_map.mp hp
  subst hpa
  refine ⟨?_, ?_, by decide, ?_, by decide, by decide, by decide, by decide, by decide, ?_⟩
  · intro h
    simp only [effectiveStatus]
    rw [if_pos h]
  · intro h
    simp only [effectiveStatus]
    rw [if_neg (Nat.not_lt.mpr h)]
  · intro s hs
    simp only [List.mem_cons, List.not_mem_nil, or_false, not_or] at hs
    by_cases he : s = ""
    · subst he
      decide
    · simp only [statusClass, Option.getD_some, if_neg he]
      rw [if_neg hs.1, if_neg hs.2.2.1, if_neg hs.2.1, if_neg hs.2.2.2.1]
  · intro t0 st1 id1 hreg st2 hhb
    simp only [register, Registry.init, freshAgent, List.find?_nil, List.nil_append,
      Prod.mk.injEq] at hreg
    obtain ⟨hst1, hid1⟩ := hreg
    subst hid1
    rw [← hst1] at hhb
    simp only [heartbeat, List.find?_cons, beq_self_eq_true, if_pos, List.map_cons,
      List.map_nil, Except.ok.injEq] at hhb
    rw [← hhb]
    have hmax : t0 ⊔ t0 = t0 := Nat.max_self t0
    have h30 : t0 + 30 - t0 = 30 := Nat.add_sub_cancel_left t0 30
    have h90 : t0 + 90 - t0 = 90 := Nat.add_sub_cancel_left t0 90
    have hsc : statusClass (some "online") = Status.online := by decide
    constructor
    · simp [listAgents, effectiveStatus, hbUpdate, hmax, h30, hsc]
    · simp [listAgents, effectiveStatus, hbUpdate, hmax, h90]

/-- C1 witness: the theorem applied to the concrete one-agent registry of
the §8 scenario at `now = 30`, `timeout = 60`. -/
theorem effective_status_rule_witness :
    ((katAgent, Status.online) ∈ listAgents katRegistry 30 60)
    ∧ Status.online = statusClass katAgent.declaredStatus :=
  have hmem : (katAgent, Status.online) ∈ listAgents katRegistry 30 60 := by decide
  ⟨hmem,
    (effective_status_rule katRegistry 30 60 (katAgent, Status.online) hmem).2.1
      (by decide)⟩

/-- C2: the kanban projector is a total function into the five columns, and
its rules are evaluated in the fixed first-match-wins order: closed → Done,
review label → Review, in-progress label or assignee with a recent update →
In Progress, assignee → Assigned, otherwise Inbox.  In particular an open
issue with a review label and an assignee projects to Review, and a closed
review-labeled issue projects to Done. -/
theorem column_total_and_ordered (now workWindow : Nat) (i : SpecIssue) :
    (column now workWindow i ∈
      [KanbanCol.inbox, KanbanCol.assigned, KanbanCol.inProgress,
       KanbanCol.review, KanbanCol.done])
    ∧ (i.closed = true → column now workWindow i = KanbanCol.done)
    ∧ (i.closed = false → hasReviewLabel i = true →
        column now workWindow i = KanbanCol.review)
    ∧ (i.closed = false → hasReviewLabel i = false →
        (hasInProgressLabel i = true
          ∨ (i.assignee.isSome = true ∧ now - i.updatedAt ≤ workWindow)) →
        column now workWindow i = KanbanCol.inProgress)
    ∧ (i.closed = false → hasReviewLabel i = false → hasInProgressLabel i = false →
        workWindow < now - i.updatedAt → i.assignee.isSome = true →
        column now workWindow i = KanbanCol.assigned)
    ∧ (i.closed = false → hasReviewLabel i = false → hasInProgressLabel i = false →
        i.assignee = none → column now workWindow i = KanbanCol.inbox)
    ∧ (i.closed = true → hasReviewLabel i = true →
        column now workWindow i = KanbanCol.done)
    ∧ (∀ u : Nat, column now workWindow
        { repo := "org/repo", number := 5, title := "t", url := "u",
          labels := ["review"], assignee := some "sam", updatedAt := u,
          closed := false } = KanbanCol.review) := by
  refine ⟨?_, ?_, ?_, ?_, ?_, ?_, ?_, ?_⟩
  · unfold column
    split
    · simp
    · split
      · simp
      · split
        · simp
        · split <;> simp
  · intro h; simp [column, h]
  · intro h hr; simp [column, h, hr]
  · intro h hr hp
    rcases hp with hp | ⟨hp1, hp2⟩
    · simp [column, h, hr, hp]
    · simp [column, h, hr, hp1, hp2]
  · intro h hr hp hw hassg
    simp [column, h, hr, hp, hassg, Nat.not_le.mpr hw]
  · intro h hr hp hassg
    simp [column, h, hr, hp, hassg]
  · intro h _; simp [column, h]
  · intro u
    simp [column, hasReviewLabel]

/-- C2 witness: the theorem applied to the §8 scenario issue (open, review
label, assignee "sam"). -/
theorem column_total_and_ordered_witness :
    column 100 60
      { repo := "org/repo", number := 5, title := "t", url := "u",
        labels := ["review"], assignee := some "sam", updatedAt := 90,
        closed := false } = KanbanCol.review :=
  (column_total_and_ordered 100 60
    { repo := "org/repo", number := 5, title := "t", url := "u",
      labels := ["review"], assignee := some "sam", updatedAt := 90,
      closed := false }).2.2.1 rfl rfl

/-- C5: a `Refresh(repo)` whose external fetch fails leaves every cache
slice — the one for `repo` and every other repository's — exactly as it
was, and the failure is never surfaced to a read: `List()` returns the
same (possibly stale) data as before the call, while the scheduler only
sees the `false` report. -/
theorem refresh_failure_preserves_cache (c : IssueCache) (repo : String)
    (now : Nat) (err : FetchError) (readNow workWindow : Nat) :
    (refresh c repo now (Except.error err)).1.slices = c.slices
    ∧ getSlice (refresh c repo now (Except.error err)).1.slices repo
        = getSlice c.slices repo
    ∧ (∀ r, getSlice (refresh c repo now (Except.error err)).1.slices r
        = getSlice c.slices r)
    ∧ listIssues (refresh c repo now (Except.error err)).1 readNow workWindow
        = listIssues c readNow workWindow
    ∧ (refresh c repo now (Except.error err)).2 = false :=
  ⟨rfl, rfl, fun _ => rfl, rfl, rfl⟩

/-- C7: with a shared write secret configured, every write endpoint rejects
a request lacking the correct secret header as unauthorized, accepts the
correct header, and every read endpoint succeeds without any secret. -/
theorem write_endpoints_require_key (k : String) (e : Endpoint)
    (header : Option String) :
    (isWriteEndpoint e = true → header ≠ some k →
      authorize (some k) e header = Except.error ApiError.unauthorized)
    ∧ (isWriteEndpoint e = true → authorize (some k) e (some k) = Except.ok ())
    ∧ (isWriteEndpoint e = false → authorize (some k) e header = Except.ok ())
    ∧ (∀ anyKey : Option String, isWriteEndpoint e = false →
        authorize anyKey e none = Except.ok ())
    ∧ isWriteEndpoint Endpoint.registerAgent = true
    ∧ isWriteEndpoint Endpoint.heartbeatPost = true
    ∧ isWriteEndpoint Endpoint.issuesRefresh = true
    ∧ isWriteEndpoint Endpoint.heartbeatToggle = true
    ∧ isWriteEndpoint Endpoint.agentsGet = false
    ∧ isWriteEndpoint Endpoint.issuesGet = false
    ∧ isWriteEndpoint Endpoint.activityGet = false := by
  refine ⟨?_, ?_, ?_, ?_, rfl, rfl, rfl, rfl, rfl, rfl, rfl⟩
  · intro hw hh
    simp [authorize, hw, hh]
  · intro hw
    simp [authorize, hw]
  · intro hr
    simp [authorize, hr]
  · intro anyKey hr
    simp [authorize, hr]

/-- C7 witness: the theorem applied to a concrete configured key, the
register endpoint and a missing header. -/
theorem write_endpoints_require_key_witness :
    authorize (some "secret") Endpoint.registerAgent none
      = Except.error ApiError.unauthorized :=
  (write_endpoints_require_key "secret" Endpoint.registerAgent none).1
    rfl (by decide)

/-! ## Registry lemmas shared by the registration and heartbeat theorems -/

theorem regUpdate_name (name role : String) (now : Nat) (b : Agent) :
    (regUpdate name role now b).name = b.name := by
  unfold regUpdate
  split <;> rfl

theorem regUpdate_id (name role : String) (now : Nat) (b : Agent) :
    (regUpdate name role now b).id = b.id := by
  unfold regUpdate
  split <;> rfl

theorem find?_map_regUpdate (l : List Agent) (name role : String) (now : Nat) :
    (l.map (regUpdate name role now)).find? (fun a => a.name == name)
      = (l.find? (fun a => a.name == name)).map (regUpdate name role now) := by
  have hp : ((fun a : Agent => a.name == name) ∘ regUpdate name role now)
      = (fun a : Agent => a.name == name) := by
    funext b
    simp [Function.comp, regUpdate_name]
  rw [List.find?_map, hp]

theorem countP_map_regUpdate (l : List Agent) (name role : String) (now : Nat) :
    (l.map (regUpdate name role now)).countP (fun a => a.name == name)
      = l.countP (fun a => a.name == name) := by
  rw [List.countP_map]
  congr 1
  funext b
  simp [Function.comp, regUpdate_name]

theorem countP_name_le_one (l : List Agent) (name : String)
    (hn : (l.map Agent.name).Nodup) :
    l.countP (fun a => a.name == name) ≤ 1 := by
  have h1 : l.countP (fun a => a.name == name)
      = (l.map Agent.name).countP (fun s => s == name) := by
    rw [List.countP_map]
    rfl
  rw [h1]
  exact List.nodup_iff_count_le_one.mp hn name

/-- C3: `Register` is idempotent on name: two calls with the same name
return the same agent id (the model never fails on the duplicate — the
operation is total), and afterwards the registry, hence `List()`, contains
exactly one record for that name. -/
theorem register_idempotent (st : Registry) (n r1 r2 : String) (t1 t2 : Nat)
    (hnodup : (st.agents.map Agent.name).Nodup) :
    (register st n r1 t1).2 = (register (register st n r1 t1).1 n r2 t2).2
    ∧ ((register (register st n r1 t1).1 n r2 t2).1.agents.filter
        (fun a => a.name == n)).length = 1
    ∧ ∀ now timeout,
        ((listAgents (register (register st n r1 t1).1 n r2 t2).1 now timeout).filter
          (fun p => p.1.name == n)).length = 1 := by
  rcases h1 : st.agents.find? (fun a => a.name == n) with _ | a
  · -- the name was unseen: the first call appends a fresh record
    have hfreshP : (fun a : Agent => a.name == n) (freshAgent st n r1 t1) = true := by
      simp [freshAgent]
    have hreg1 : register st n r1 t1 =
        ({ agents := st.agents ++ [freshAgent st n r1 t1], nextId := st.nextId + 1 },
          st.nextId) := by
      simp [register, h1]
    have hfind2 : (st.agents ++ [freshAgent st n r1 t1]).find?
        (fun a => a.name == n) = some (freshAgent st n r1 t1) := by
      rw [List.find?_append, h1]
      simp [hfreshP]
    have hreg2 : register (register st n r1 t1).1 n r2 t2 =
        ({ agents := (st.agents ++ [freshAgent st n r1 t1]).map (regUpdate n r2 t2),
           nextId := st.nextId + 1 },
          (freshAgent st n r1 t1).id) := by
      rw [hreg1]
      simp [register, hfind2]
    have hc0 : st.agents.countP (fun a => a.name == n) = 0 := by
      rw [List.countP_eq_zero]
      intro a ha
      have := List.find?_eq_none.mp h1 a ha
      simpa using this
    have hcount : (register (register st n r1 t1).1 n r2 t2).1.agents.countP
        (fun a => a.name == n) = 1 := by
      rw [hreg2]
      simp only [countP_map_regUpdate, List.countP_append, hc0]
      simp [List.countP_cons, hfreshP]
    refine ⟨?_, ?_, ?_⟩
    · rw [hreg2, hreg1]
      rfl
    · rw [← List.countP_eq_length_filter]
      exact hcount
    · intro now timeout
      rw [listAgents, ← List.countP_eq_length_filter, List.countP_map]
      exact hcount
  · -- the name already existed: both calls update in place
    have hpa : (a.name == n) = true := by
      have h' := List.find?_some h1
      exact h'
    have hreg1 : register st n r1 t1 =
        ({ st with agents := st.agents.map (regUpdate n r1 t1) }, a.id) := by
      simp [register, h1]
    have hfind2 : (st.agents.map (regUpdate n r1 t1)).find? (fun x => x.name == n)
        = some (regUpdate n r1 t1 a) := by
      rw [find?_map_regUpdate, h1]
      rfl
    have hreg2 : register (register st n r1 t1).1 n r2 t2 =
        ({ st with agents := (st.agents.map (regUpdate n r1 t1)).map (regUpdate n r2 t2) },
          (regUpdate n r1 t1 a).id) := by
      rw [hreg1]
      simp [register, hfind2]
    have hcount1 : st.agents.countP (fun x => x.name == n) = 1 := by
      have hge : 0 < st.agents.countP (fun x => x.name == n) :=
        List.countP_pos_iff.mpr ⟨a, List.mem_of_find?_eq_some h1, hpa⟩
      have hle := countP_name_le_one st.agents n hnodup
      omega
    have hcount : (register (register st n r1 t1).1 n r2 t2).1.agents.countP
        (fun x => x.name == n) = 1 := by
      rw [hreg2]
      simp only [countP_map_regUpdate]
      exact hcount1
    refine ⟨?_, ?_, ?_⟩
    · rw [hreg2, hreg1]
      simp [regUpdate_id]
    · rw [← List.countP_eq_length_filter]
      exact hcount
    · intro now timeout
      rw [listAgents, ← List.countP_eq_length_filter, List.countP_map]
      exact hcount

/-- C3 witness: the theorem applied to the empty registry with name "Kat"
registered twice. -/
theorem register_idempotent_witness :
    (register Registry.init "Kat" "backend" 0).2
      = (register (register Registry.init "Kat" "backend" 0).1 "Kat" "pm" 7).2
    ∧ ((register (register Registry.init "Kat" "backend" 0).1 "Kat" "pm" 7).1.agents.filter
        (fun a => a.name == "Kat")).length = 1 :=
  have h := register_idempotent Registry.init "Kat" "backend" "pm" 0 7 (by decide)
  ⟨h.1, h.2.1⟩

/-- C4: `last_active` never moves backward: a heartbeat leaves every
record's `last_active` no smaller than before, and a heartbeat whose
timestamp `now` is not newer than a record's stored `last_active` leaves
that record's `last_active` exactly unchanged (the stale write is
ignored). -/
theorem heartbeat_monotonic (st : Registry) (agentId : Nat) (status : String)
    (task : Option String) (now : Nat) (st' : Registry)
    (h : heartbeat st agentId status task now = Except.ok st') :
    List.Forall₂ (fun a a' : Agent =>
        a.lastActive ≤ a'.lastActive
        ∧ (now ≤ a.lastActive → a'.lastActive = a.lastActive))
      st.agents st'.agents := by
  unfold heartbeat at h
  rcases hf : st.agents.find? (fun a => a.id == agentId) with _ | a
  · rw [hf] at h
    exact absurd h (by simp)
  · rw [hf] at h
    simp only [Except.ok.injEq] at h
    rw [← h]
    simp only []
    rw [List.forall₂_map_right_iff]
    rw [List.forall₂_same]
    intro b _
    unfold hbUpdate
    split
    · exact ⟨Nat.le_max_left _ _, fun hle => Nat.max_eq_left hle⟩
    · exact ⟨Nat.le_refl _, fun _ => rfl⟩

/-- C4 witness: a registry holding one agent with `last_active = 100`
receives a heartbeat stamped `now = 50`; the stored `last_active` stays
`100`. -/
theorem heartbeat_monotonic_witness :
    heartbeat ⟨[⟨1, "Kat", "backend", some "online", 100, 0, none⟩], 2⟩
        1 "busy" none 50
      = Except.ok ⟨[⟨1, "Kat", "backend", some "busy", 100, 0, none⟩], 2⟩
    ∧ List.Forall₂ (fun a a' : Agent =>
        a.lastActive ≤ a'.lastActive
        ∧ (50 ≤ a.lastActive → a'.lastActive = a.lastActive))
      [⟨1, "Kat", "backend", some "online", 100, 0, none⟩]
      [⟨1, "Kat", "backend", some "busy", 100, 0, none⟩] :=
  have h : heartbeat ⟨[⟨1, "Kat", "backend", some "online", 100, 0, none⟩], 2⟩
      1 "busy" none 50
      = Except.ok ⟨[⟨1, "Kat", "backend", some "busy", 100, 0, none⟩], 2⟩ := by
    rfl
  ⟨h, heartbeat_monotonic _ 1 "busy" none 50 _ h⟩

/-- C6: registering an already-taken name updates only `role` and
`uptime_since` of the matching record (its `id`, `last_active`,
`declared_status`, `current_task` and `name` survive verbatim), leaves
every other record untouched, creates no record and does not advance the
id counter. -/
theorem register_existing_frame (st : Registry) (n r : String) (now : Nat)
    (a : Agent) (ha : a ∈ st.agents) (han : a.name = n) :
    ({ a with role := r, uptimeSince := now } ∈ (register st n r now).1.agents)
    ∧ (∀ b ∈ st.agents, b.name ≠ n → b ∈ (register st n r now).1.agents)
    ∧ (register st n r now).1.agents.length = st.agents.length
    ∧ (register st n r now).1.nextId = st.nextId := by
  have hfs : (st.agents.find? (fun x => x.name == n)).isSome := by
    rw [List.find?_isSome]
    exact ⟨a, ha, by simp [han]⟩
  rcases hopt : st.agents.find? (fun x => x.name == n) with _ | a0
  · rw [hopt] at hfs
    simp at hfs
  · have hreg : (register st n r now).1
        = { st with agents := st.agents.map (regUpdate n r now) } := by
      simp [register, hopt]
    rw [hreg]
    refine ⟨?_, ?_, by simp, rfl⟩
    · have hu : regUpdate n r now a = { a with role := r, uptimeSince := now } := by
        simp [regUpdate, han]
      exact hu ▸ List.mem_map_of_mem _ ha
    · intro b hb hbn
      have hu : regUpdate n r now b = b := by
        simp [regUpdate, hbn]
      exact hu ▸ List.mem_map_of_mem _ hb

/-- C6 witness: re-registering "Kat" with a new role at time 5 in the
one-agent registry. -/
theorem register_existing_frame_witness :
    (katAgent ∈ katRegistry.agents)
    ∧ ({ katAgent with role := "pm", uptimeSince := 5 }
        ∈ (register katRegistry "Kat" "pm" 5).1.agents)
    ∧ (register katRegistry "Kat" "pm" 5).1.agents.length
        = katRegistry.agents.length :=
  have hmem : katAgent ∈ katRegistry.agents := by decide
  have h := register_existing_frame katRegistry "Kat" "pm" 5 katAgent hmem rfl
  ⟨hmem, h.1, h.2.2.1⟩

/-! ## Scheduler lemmas -/

theorem schedStep_nodup (s : SchedState) (ev : SchedEvent)
    (h : s.inFlight.Nodup) : (schedStep s ev).inFlight.Nodup := by
  cases ev with
  | start r =>
      simp only [schedStep]
      split
      · exact h
      · next hr => exact List.nodup_cons.mpr ⟨hr, h⟩
  | complete r now fetched =>
      simp only [schedStep]
      split
      · exact h.erase r
      · exact h

theorem schedRun_nodup (evs : List SchedEvent) : (schedRun evs).inFlight.Nodup := by
  have aux : ∀ (l : List SchedEvent) (s : SchedState), s.inFlight.Nodup →
      (l.foldl schedStep s).inFlight.Nodup := by
    intro l
    induction l with
    | nil => intro s hs; exact hs
    | cons e t ih =>
        intro s hs
        exact ih (schedStep s e) (schedStep_nodup s e hs)
  exact aux evs ⟨[], ⟨[], [], []⟩⟩ List.nodup_nil

/-- C8: at most one refresh per repository is ever in flight: after any
serialized trace of scheduler events each repository occurs at most once in
the in-flight set, a second `start` for a repository already in flight is a
no-op against the running one, and a completion applies exactly the single
fetch outcome to that repository's slice. -/
theorem refresh_single_flight (evs : List SchedEvent) (repo : String) :
    ((schedRun evs).inFlight.count repo ≤ 1)
    ∧ (∀ s : SchedState, repo ∈ s.inFlight →
        schedStep s (SchedEvent.start repo) = s)
    ∧ (∀ (s : SchedState) (now : Nat) (issues : List SpecIssue),
        repo ∈ s.inFlight →
        (schedStep s (SchedEvent.complete repo now (Except.ok issues))).cache.slices
          = setSlice s.cache.slices repo issues) := by
  refine ⟨?_, ?_, ?_⟩
  · exact List.nodup_iff_count_le_one.mp (schedRun_nodup evs) repo
  · intro s hs
    simp only [schedStep]
    rw [if_pos hs]
  · intro s now issues hs
    simp only [schedStep]
    rw [if_pos hs]
    rfl

/-- C8 witness: the theorem applied to a two-`start` trace for the same
repository and to a concrete state with that repository in flight. -/
theorem refresh_single_flight_witness :
    ((schedRun [SchedEvent.start "org/repo",
        SchedEvent.start "org/repo"]).inFlight.count "org/repo" ≤ 1)
    ∧ schedStep ⟨["org/repo"], ⟨[], [], []⟩⟩ (SchedEvent.start "org/repo")
        = ⟨["org/repo"], ⟨[], [], []⟩⟩ :=
  have h := refresh_single_flight
    [SchedEvent.start "org/repo", SchedEvent.start "org/repo"] "org/repo"
  ⟨h.1, h.2.1 ⟨["org/repo"], ⟨[], [], []⟩⟩ (by decide)⟩

/-! ## Kanban board grouping lemmas -/

theorem normalizeColumn_cases (c : Option String)
    (h : normalizeColumn c ∈ kanbanColKeys) :
    normalizeColumn c = "Inbox" ∨ normalizeColumn c = "Assigned"
    ∨ normalizeColumn c = "In Progress" ∨ normalizeColumn c = "Review"
    ∨ normalizeColumn c = "Done" := by
  simpa [kanbanColKeys] using h

theorem kanbanGroup_length_cons (i : JsIssue) (t : List JsIssue) (k : String) :
    (kanbanGroup (i :: t) k).length
      = (if (normalizeColumn i.column == k) = true then 1 else 0)
        + (kanbanGroup t k).length := by
  by_cases hik : (normalizeColumn i.column == k) = true
  · unfold kanbanGroup
    rw [List.filter_cons, if_pos hik, if_pos hik, List.length_cons]
    omega
  · unfold kanbanGroup
    rw [List.filter_cons, if_neg hik, if_neg hik]
    omega

theorem kanbanColKeys_sum (l : List JsIssue) :
    (kanbanColKeys.map (fun k => (kanbanGroup l k).length)).sum
      = (kanbanGroup l "Inbox").length + (kanbanGroup l "Assigned").length
        + (kanbanGroup l "In Progress").length + (kanbanGroup l "Review").length
        + (kanbanGroup l "Done").length := by
  simp only [kanbanColKeys, List.map_cons, List.map_nil, List.sum_cons,
    List.sum_nil]
  omega

theorem kanbanGroup_sum (issues : List JsIssue) :
    (∀ i ∈ issues, normalizeColumn i.column ∈ kanbanColKeys) →
    (kanbanColKeys.map (fun k => (kanbanGroup issues k).length)).sum
      = issues.length := by
  induction issues with
  | nil => intro _; decide
  | cons i t ih =>
      intro hsafe
      have ihh := ih (fun j hj => hsafe j (List.mem_cons_of_mem i hj))
      rw [kanbanColKeys_sum] at ihh ⊢
      rw [kanbanGroup_length_cons, kanbanGroup_length_cons,
        kanbanGroup_length_cons, kanbanGroup_length_cons,
        kanbanGroup_length_cons, List.length_cons]
      rcases normalizeColumn_cases i.column (hsafe i (List.mem_cons_self i t))
        with h | h | h | h | h <;>
        rw [h] <;> simp <;> omega

theorem kanbanGroup_cons_pos (i : JsIssue) (rest : List JsIssue) (k : String)
    (h : (k == normalizeColumn i.column) = true) :
    kanbanGroup (i :: rest) k = i :: kanbanGroup rest k := by
  unfold kanbanGroup
  rw [List.filter_cons, if_pos (beq_iff_eq.mpr (eq_of_beq h).symm)]

theorem kanbanGroup_cons_neg (i : JsIssue) (rest : List JsIssue) (k : String)
    (h : ¬ (k == normalizeColumn i.column) = true) :
    kanbanGroup (i :: rest) k = kanbanGroup rest k := by
  unfold kanbanGroup
  rw [List.filter_cons,
    if_neg (fun hb => h (beq_iff_eq.mpr (eq_of_beq hb).symm))]

theorem kanbanGroupsGo_ok (issues : List JsIssue) :
    ∀ buckets : List (String × List JsIssue),
      (∀ i ∈ issues, normalizeColumn i.column ∈ kanbanColKeys) →
      kanbanGroupsGo buckets issues
        = Except.ok (buckets.map (fun p =>
            (p.1, p.2 ++ kanbanGroup issues p.1))) := by
  induction issues with
  | nil =>
      intro buckets _
      simp [kanbanGroupsGo, kanbanGroup]
  | cons i rest ih =>
      intro buckets hsafe
      have hcol : kanbanColKeys.contains (normalizeColumn i.column) = true := by
        simpa using hsafe i (List.mem_cons_self i rest)
      have hpush : kanbanPush buckets i
          = Except.ok (buckets.map (fun p =>
              if p.1 == normalizeColumn i.column
              then (p.1, p.2 ++ [i]) else p)) := by
        unfold kanbanPush
        rw [if_pos hcol]
      rw [kanbanGroupsGo, hpush]
      dsimp only
      rw [ih _ (fun j hj => hsafe j (List.mem_cons_of_mem i hj))]
      congr 1
      rw [List.map_map]
      apply List.map_congr_left
      intro p _
      simp only [Function.comp_apply]
      by_cases hpc : (p.1 == normalizeColumn i.column) = true
      · rw [if_pos hpc, kanbanGroup_cons_pos i rest p.1 hpc]
        simp [List.append_assoc]
      · rw [if_neg hpc, kanbanGroup_cons_neg i rest p.1 hpc]

/-- C9 counterexample: for an issue whose `column` is `"constructor"` — a
name the `!columns[col]` truthiness test lets through, because the lookup
finds the inherited `Object.prototype.constructor` — the grouping loop of
`renderKanbanBoard` throws a TypeError on `push` instead of bucketing the
issue into Inbox: the issue is placed in no column and no per-column
counts exist to sum. -/
theorem kanban_prototype_column_throws :
    kanbanGroups [⟨7, "t", "u", "org/repo", [], none, some "constructor"⟩]
      = Except.error JsTypeError.pushOnNonArray
    ∧ normalizeColumn (some "constructor") = "constructor" :=
  ⟨rfl, rfl⟩

/-- C9 (amended): for every list of issues whose column values do not name
an inherited `Object.prototype` property, the grouping loop completes and
partitions its input: the buckets are exactly the five per-column filters,
an issue is in a column's bucket exactly when its normalized column equals
that name, every issue lands in exactly one of the five recognized
columns, any missing, empty or otherwise-unrecognized `column` value lands
in `Inbox`, and the five per-column counts sum to the number of issues.
An issue whose column does name an inherited `Object.prototype` property
instead makes the loop throw — see the counterexample theorem. -/
theorem kanban_grouping_partition (issues : List JsIssue)
    (hsafe : ∀ i ∈ issues, normalizeColumn i.column ∈ kanbanColKeys) :
    (kanbanGroups issues
      = Except.ok (kanbanColKeys.map (fun k => (k, kanbanGroup issues k))))
    ∧ (∀ i ∈ issues, ∀ colName : String,
        (i ∈ kanbanGroup issues colName
          ↔ (normalizeColumn i.column == colName) = true))
    ∧ (∀ i ∈ issues, ∃! colName : String,
        colName ∈ kanbanColKeys ∧ i ∈ kanbanGroup issues colName)
    ∧ (∀ c : Option String, kanbanColKeys.contains (c.getD "") = false →
        objectProtoKeys.contains (c.getD "") = false →
        normalizeColumn c = "Inbox")
    ∧ ((kanbanColKeys.map (fun k => (kanbanGroup issues k).length)).sum
        = issues.length) := by
  refine ⟨?_, ?_, ?_, ?_, kanbanGroup_sum issues hsafe⟩
  · rw [kanbanGroups, kanbanGroupsGo_ok issues _ hsafe]
    congr 1
  · intro i hi colName
    unfold kanbanGroup
    constructor
    · intro hmem
      exact (List.mem_filter.mp hmem).2
    · intro hbeq
      exact List.mem_filter.mpr ⟨hi, hbeq⟩
  · intro i hi
    unfold kanbanGroup
    refine ⟨normalizeColumn i.column, ⟨hsafe i hi, ?_⟩, ?_⟩
    · exact List.mem_filter.mpr ⟨hi, by simp⟩
    · intro y hy
      have hb := (List.mem_filter.mp hy.2).2
      exact (eq_of_beq hb).symm
  · intro c hc hp
    simp only [normalizeColumn]
    by_cases he : c.getD "" = ""
    · rw [if_pos he]
      decide
    · rw [if_neg he,
        if_neg (show ¬ (kanbanColKeys.contains (c.getD "")
            || objectProtoKeys.contains (c.getD "")) = true from
          fun hcon => by
            rw [hc, hp] at hcon
            exact absurd hcon (by decide))]

/-- The one-issue board of the §8 scenario, used by the C9 witness. -/
def reviewBoard : List JsIssue :=
  [⟨5, "t", "u", "org/repo", ["review"], some "sam", some "Review"⟩]

/-- C9 witness: the theorem applied to the concrete one-issue board, with
the safety hypothesis discharged by evaluation. -/
theorem kanban_grouping_partition_witness :
    (∀ i ∈ reviewBoard, normalizeColumn i.column ∈ kanbanColKeys)
    ∧ kanbanGroups reviewBoard
        = Except.ok (kanbanColKeys.map (fun k => (k, kanbanGroup reviewBoard k)))
    ∧ (kanbanColKeys.map (fun k => (kanbanGroup reviewBoard k).length)).sum
        = reviewBoard.length :=
  have hsafe : ∀ i ∈ reviewBoard, normalizeColumn i.column ∈ kanbanColKeys := by
    decide
  have h := kanban_grouping_partition reviewBoard hsafe
  ⟨hsafe, h.1, h.2.2.2.2⟩

/-! ## HTML-escaping lemmas: the escaped fields can never contribute an
angle bracket to the rendered markup -/

theorem digitChar_isDigit (m : Nat) : (digitChar m).isDigit = true := by
  rcases m with _|_|_|_|_|_|_|_|_|m <;> first | decide | rfl

theorem natStrGo_mem (fuel : Nat) :
    ∀ (n : Nat) (acc : List Char), ∀ c ∈ natStrGo fuel n acc,
      c ∈ acc ∨ c.isDigit = true := by
  induction fuel with
  | zero => intro n acc c hc; exact Or.inl hc
  | succ fuel ih =>
      intro n acc c hc
      rw [natStrGo] at hc
      split at hc
      · rcases List.mem_cons.mp hc with h | h
        · exact Or.inr (h ▸ digitChar_isDigit n)
        · exact Or.inl h
      · rcases ih (n / 10) (digitChar (n % 10) :: acc) c hc with h | h
        · rcases List.mem_cons.mp h with h' | h'
          · exact Or.inr (h' ▸ digitChar_isDigit (n % 10))
          · exact Or.inl h'
        · exact Or.inr h

theorem natStr_isDigit (n : Nat) : ∀ c ∈ (natStr n).data, c.isDigit = true := by
  intro c hc
  rcases natStrGo_mem (n + 1) n [] c hc with h | h
  · simp at h
  · exact h

theorem natStr_no_lt (n : Nat) : '<' ∉ (natStr n).data :=
  fun hm => absurd (natStr_isDigit n '<' hm) (by decide)

theorem timeAgo_no_lt (ts : Option Nat) (now : Nat) :
    '<' ∉ (timeAgo ts now).data := by
  have happ : ∀ (s t : String), '<' ∉ s.data → '<' ∉ t.data →
      '<' ∉ (s ++ t).data := by
    intro s t hs ht hm
    rw [String.data_append] at hm
    rcases List.mem_append.mp hm with h | h
    · exact hs h
    · exact ht h
  rcases ts with _ | t
  · exact (by decide : '<' ∉ ("Never" : String).data)
  · simp only [timeAgo]
    split_ifs <;> first
      | exact (by decide : '<' ∉ ("Just now" : String).data)
      | exact happ _ _ (natStr_no_lt _) (by decide)

theorem escChar_no_angle (c : Char) : '<' ∉ escChar c ∧ '>' ∉ escChar c := by
  unfold escChar
  split_ifs with h1 h0 h2 h3
  · decide
  · decide
  · decide
  · decide
  · constructor <;> intro hm
    · exact h2 (List.mem_singleton.mp hm).symm
    · exact h3 (List.mem_singleton.mp hm).symm

theorem escapeHtml_no_angle (s : Option String) :
    '<' ∉ (escapeHtml s).data ∧ '>' ∉ (escapeHtml s).data := by
  rcases s with _ | t
  · decide
  · simp only [escapeHtml]
    split_ifs with h
    · decide
    · constructor <;> intro hm
      · obtain ⟨c, _, hmem⟩ := List.mem_flatMap.mp hm
        exact (escChar_no_angle c).1 hmem
      · obtain ⟨c, _, hmem⟩ := List.mem_flatMap.mp hm
        exact (escChar_no_angle c).2 hmem

theorem escapeHtml_lt_count (s : Option String) :
    (escapeHtml s).data.count '<' = 0 :=
  List.count_eq_zero.mpr (escapeHtml_no_angle s).1

theorem natStr_lt_count (n : Nat) : (natStr n).data.count '<' = 0 :=
  List.count_eq_zero.mpr (natStr_no_lt n)

theorem timeAgo_lt_count (ts : Option Nat) (now : Nat) :
    (timeAgo ts now).data.count '<' = 0 :=
  List.count_eq_zero.mpr (timeAgo_no_lt ts now)

theorem escChar_amp_count (c : Char) :
    (escChar c).count '&'
      = (if (c == '&') = true then 1 else 0)
        + (if (c == '<') = true then 1 else 0)
        + (if (c == '>') = true then 1 else 0)
        + (if (c == '\u00A0') = true then 1 else 0) := by
  by_cases h1 : c = '&'
  · subst h1
    decide
  · by_cases h0 : c = '\u00A0'
    · subst h0
      decide
    · by_cases h2 : c = '<'
      · subst h2
        decide
      · by_cases h3 : c = '>'
        · subst h3
          decide
        · rw [if_neg (fun hb => h1 (eq_of_beq hb)),
            if_neg (fun hb => h2 (eq_of_beq hb)),
            if_neg (fun hb => h3 (eq_of_beq hb)),
            if_neg (fun hb => h0 (eq_of_beq hb))]
          simp only [escChar, if_neg h1, if_neg h0, if_neg h2, if_neg h3]
          exact List.count_eq_zero.mpr
            (fun hm => h1 (List.mem_singleton.mp hm).symm)

theorem flatMap_escChar_amp (l : List Char) :
    (l.flatMap escChar).count '&'
      = l.count '&' + l.count '<' + l.count '>' + l.count '\u00A0' := by
  induction l with
  | nil => rfl
  | cons c cs ih =>
      rw [List.flatMap_cons, List.count_append, ih, List.count_cons,
        List.count_cons, List.count_cons, List.count_cons, escChar_amp_count]
      omega

theorem escapeHtml_amp_count (t : String) :
    (escapeHtml (some t)).data.count '&'
      = t.data.count '&' + t.data.count '<' + t.data.count '>'
        + t.data.count '\u00A0' := by
  simp only [escapeHtml]
  split_ifs with h
  · subst h
    decide
  · exact flatMap_escChar_amp t.data

theorem renderLabelList_lt_count (ls : List String) :
    (renderLabelList ls).data.count '<' = 2 * ls.length := by
  induction ls with
  | nil => rfl
  | cons l t ih =>
      simp only [renderLabelList, String.data_append, List.count_append, ih,
        escapeHtml_lt_count, List.length_cons]
      have h1 : ("<span class=\"issue-label\">").data.count '<' = 1 := by decide
      have h2 : ("</span>").data.count '<' = 1 := by decide
      rw [h1, h2]
      omega

theorem renderIssueCard_lt_count (i : JsIssue) :
    (renderIssueCard i).data.count '<'
      = 12 + (if i.assignee.getD "" = "" then 0 else 2)
        + (if i.labels.length = 0 then 0 else 2 * i.labels.length + 2) := by
  have h1 : ("<div class=\"issue-card\">").data.count '<' = 1 := by decide
  have h2 : ("<div class=\"issue-card-title\">").data.count '<' = 1 := by decide
  have h3 : ("<a href=\"").data.count '<' = 1 := by decide
  have h4 : ("\" target=\"_blank\" rel=\"noopener\">").data.count '<' = 0 := by decide
  have h5 : ("</a>").data.count '<' = 1 := by decide
  have h6 : ("</div>").data.count '<' = 1 := by decide
  have h7 : ("<div class=\"issue-card-meta\">").data.count '<' = 1 := by decide
  have h8 : ("<span class=\"issue-card-number\">#").data.count '<' = 1 := by decide
  have h9 : ("</span>").data.count '<' = 1 := by decide
  have h10 : ("<span class=\"repo-badge\">").data.count '<' = 1 := by decide
  have h11 : ("<span class=\"issue-assignee\">").data.count '<' = 1 := by decide
  have h12 : ("<div class=\"issue-labels\">").data.count '<' = 1 := by decide
  have h0 : ("" : String).data.count '<' = 0 := by decide
  by_cases hlen : i.labels.length = 0
  · by_cases hass : i.assignee.getD "" = ""
    · simp only [renderIssueCard, if_pos hass,
        if_neg (by omega : ¬ i.labels.length > 0),
        String.data_append, List.count_append, escapeHtml_lt_count,
        natStr_lt_count, h0, h1, h2, h3, h4, h5, h6, h7, h8, h9, h10, hlen]
      norm_num
    · simp only [renderIssueCard, if_neg hass,
        if_neg (by omega : ¬ i.labels.length > 0),
        String.data_append, List.count_append, escapeHtml_lt_count,
        natStr_lt_count, h0, h1, h2, h3, h4, h5, h6, h7, h8, h9, h10, h11,
        hlen]
      norm_num
  · by_cases hass : i.assignee.getD "" = ""
    · simp only [renderIssueCard, if_pos hass,
        if_pos (by omega : i.labels.length > 0),
        String.data_append, List.count_append, escapeHtml_lt_count,
        natStr_lt_count, renderLabelList_lt_count, h0, h1, h2, h3, h4, h5,
        h6, h7, h8, h9, h10, h12, if_neg hlen]
      norm_num
      omega
    · simp only [renderIssueCard, if_neg hass,
        if_pos (by omega : i.labels.length > 0),
        String.data_append, List.count_append, escapeHtml_lt_count,
        natStr_lt_count, renderLabelList_lt_count, h0, h1, h2, h3, h4, h5,
        h6, h7, h8, h9, h10, h11, h12, if_neg hlen]
      norm_num
      omega

theorem activityIcon_lt_count (t : Option String)
    (h : objectProtoKeys.contains (t.getD "") = false) :
    (activityIcon t).data.count '<' = 0 := by
  rcases t with _ | s
  · decide
  · simp only [Option.getD_some] at h
    simp only [activityIcon]
    split_ifs with hc hh hs hp
    · decide
    · decide
    · decide
    · rw [h] at hp
      exact absurd hp (by decide)
    · decide

theorem renderActivityItem_lt_count (now : Nat) (e : ActivityEvent)
    (h : objectProtoKeys.contains (e.eventType.getD "") = false) :
    (renderActivityItem now e).data.count '<'
      = 12 + (iconClass e.eventType).data.count '<' := by
  have a1 : ("<div class=\"activity-item\">").data.count '<' = 1 := by decide
  have a2 : ("<span class=\"activity-icon ").data.count '<' = 1 := by decide
  have a3 : ("\">").data.count '<' = 0 := by decide
  have a4 : ("</span>").data.count '<' = 1 := by decide
  have a5 : ("<div class=\"activity-body\">").data.count '<' = 1 := by decide
  have a6 : ("<span class=\"activity-agent\">").data.count '<' = 1 := by decide
  have a7 : ("<span class=\"activity-message\">").data.count '<' = 1 := by decide
  have a8 : ("</div>").data.count '<' = 1 := by decide
  have a9 : ("<span class=\"activity-time\">").data.count '<' = 1 := by decide
  have hicon := activityIcon_lt_count e.eventType h
  simp only [renderActivityItem, String.data_append, List.count_append,
    escapeHtml_lt_count, timeAgo_lt_count, hicon,
    a1, a2, a3, a4, a5, a6, a7, a8, a9]
  omega

/-- C10: `escapeHtml` is total — the empty string for a missing or empty
input — and replaces the HTML-significant characters `&`, `<`, `>` of its
input by entities (the text-node serialization also converts U+00A0 to
`&nbsp;`): its output never contains `<` or `>`, and every `&` in the
output heads the entity of exactly one `&`, `<`, `>` or U+00A0 of the
input.  Consequently, because `renderIssueCard` routes `title`, `url`,
`repo`, a truthy `assignee` and every label through `escapeHtml` (and the
issue number through decimal coercion), and `renderActivityFeed` routes
`agent` and `message` through `escapeHtml`, the number of `<` characters
in a rendered issue card or activity item is a constant of the markup
skeleton (for the activity item: whenever the event type does not name an
inherited `Object.prototype` property), never a function of those
user-supplied text fields. -/
theorem escapeHtml_total_and_renderers_escape (s : Option String) (t : String)
    (i : JsIssue) (now : Nat) (e : ActivityEvent) :
    escapeHtml none = ""
    ∧ escapeHtml (some "") = ""
    ∧ ('<' ∉ (escapeHtml s).data ∧ '>' ∉ (escapeHtml s).data)
    ∧ ((escapeHtml (some t)).data.count '&'
        = t.data.count '&' + t.data.count '<' + t.data.count '>'
          + t.data.count '\u00A0')
    ∧ ((renderIssueCard i).data.count '<'
        = 12 + (if i.assignee.getD "" = "" then 0 else 2)
          + (if i.labels.length = 0 then 0 else 2 * i.labels.length + 2))
    ∧ (objectProtoKeys.contains (e.eventType.getD "") = false →
        (renderActivityItem now e).data.count '<'
          = 12 + (iconClass e.eventType).data.count '<') :=
  ⟨rfl, rfl, escapeHtml_no_angle s, escapeHtml_amp_count t,
    renderIssueCard_lt_count i, fun h => renderActivityItem_lt_count now e h⟩

/-- C10 witness: the theorem applied at concrete inputs, discharging the
prototype-safety hypothesis of the activity-item conjunct by evaluation. -/
theorem escapeHtml_total_and_renderers_escape_witness :
    objectProtoKeys.contains ((some "commit" : Option String).getD "") = false
    ∧ (renderActivityItem 0
          ⟨some "commit", some "Kat", some "msg", some 0⟩).data.count '<'
        = 12 + (iconClass (some "commit")).data.count '<' :=
  have hc : objectProtoKeys.contains
      ((some "commit" : Option String).getD "") = false := by decide
  ⟨hc,
    (escapeHtml_total_and_renderers_escape none "" ⟨1, "t", "u", "r", [], none, none⟩
        0 ⟨some "commit", some "Kat", some "msg", some 0⟩).2.2.2.2.2 hc⟩

end CCDashboard

